import Mathlib

/-!
Verification of the nested hyper-parameter optimization / assessment workflow
(immuneML): a shallow embedding of `HPOptimizationProcess`, `Dataset` and
`DatasetChainFilter` together with proofs about the control flow, the
leakage-prevention invariants, the averaging of performance records, the
report error behaviour, and the dataset filename invariants.

External collaborators (splitter, encoder, trainer, assessor, reports, the
search-strategy implementation) are not part of the orchestrator source; they
enter the model as opaque function parameters, and every call the orchestrator
makes to one of them is recorded in an explicit event trace so that ordering
and data-flow properties can be stated and proved.
-/

namespace ImmuneML

/-! ## Lexicographic string order (model of Python's `sorted` on strings) -/

/-- Lexicographic comparison of char lists by code point, as Python compares
strings. -/
def charsLe : List Char → List Char → Bool
  | [], _ => true
  | _ :: _, [] => false
  | a :: as, b :: bs => if a.toNat = b.toNat then charsLe as bs else decide (a.toNat < b.toNat)

/-- Lexicographic order on strings by code point. -/
def strLe (a b : String) : Bool := charsLe a.data b.data

theorem charsLe_total : ∀ as bs, charsLe as bs = true ∨ charsLe bs as = true
  | [], _ => .inl rfl
  | _ :: _, [] => .inr rfl
  | a :: as, b :: bs => by
      by_cases hab : a.toNat = b.toNat
      · rcases charsLe_total as bs with h | h
        · exact .inl (by simp [charsLe, hab, h])
        · exact .inr (by simp [charsLe, hab.symm, h])
      · rcases Nat.lt_or_ge a.toNat b.toNat with h | h
        · exact .inl (by simp [charsLe, hab, h])
        · have hlt : b.toNat < a.toNat := lt_of_le_of_ne h (Ne.symm hab)
          exact .inr (by simp [charsLe, Ne.symm hab, hlt])

theorem charsLe_trans :
    ∀ as bs cs, charsLe as bs = true → charsLe bs cs = true → charsLe as cs = true
  | [], _, _, _, _ => rfl
  | _ :: _, [], _, h, _ => by simp [charsLe] at h
  | _ :: _, _ :: _, [], _, h => by simp [charsLe] at h
  | a :: as, b :: bs, c :: cs, h1, h2 => by
      simp only [charsLe] at h1 h2 ⊢
      by_cases hab : a.toNat = b.toNat <;> by_cases hbc : b.toNat = c.toNat
      · rw [if_pos hab] at h1
        rw [if_pos hbc] at h2
        rw [if_pos (hab.trans hbc)]
        exact charsLe_trans as bs cs h1 h2
      · rw [if_neg hbc] at h2
        rw [if_neg (fun h => hbc (hab ▸ h)), hab]
        exact h2
      · rw [if_neg hab] at h1
        rw [if_neg (fun h => hab (h.trans hbc.symm)), ← hbc]
        exact h1
      · rw [if_neg hab] at h1
        rw [if_neg hbc] at h2
        have hlt : a.toNat < c.toNat :=
          Nat.lt_trans (of_decide_eq_true h1) (of_decide_eq_true h2)
        rw [if_neg (Nat.ne_of_lt hlt)]
        exact decide_eq_true hlt

/-- The order relation used for sorting filename lists. -/
def strLeRel (a b : String) : Prop := strLe a b = true

instance : DecidableRel strLeRel := fun a b => instDecidableEqBool (strLe a b) true

instance : IsTotal String strLeRel := ⟨fun a b => charsLe_total a.data b.data⟩

instance : IsTrans String strLeRel := ⟨fun a b c => charsLe_trans a.data b.data c.data⟩

/-- Model of Python's `sorted` on a list of strings (ascending, by code
point; equal strings are identical so stability is immaterial). -/
def pySorted (l : List String) : List String := l.insertionSort strLeRel

theorem pySorted_sorted (l : List String) : List.Sorted strLeRel (pySorted l) :=
  List.sorted_insertionSort strLeRel l

theorem pySorted_perm (l : List String) : (pySorted l).Perm l :=
  List.perm_insertionSort strLeRel l

/-! ## Dataset (from `source/data_model/dataset/Dataset.py`)

Only the fields the verified code reads are modelled; `data`, `params` and the
encoded-data payload are opaque to every claim and are represented by an
optional tag.  The repertoire generator built by `get_data` iterates the file
list it is handed in order, so `get_data` is modelled by the file list the
generator receives. -/

structure Dataset where
  id : String
  filenames : List String
  metadata_file : Option String
  encoded_data : Option Nat
deriving DecidableEq

/-- `Dataset.__init__`: stores `sorted(filenames)` when a list is given and
`[]` otherwise. -/
def Dataset.init (filenames : Option (List String)) (identifier : String)
    (metadata_file : Option String) : Dataset :=
  { id := identifier
    filenames := match filenames with
      | some fs => pySorted fs
      | none => []
    metadata_file := metadata_file
    encoded_data := none }

/-- `Dataset.set_filenames`: stores `sorted(filenames)`. -/
def Dataset.set_filenames (d : Dataset) (filenames : List String) : Dataset :=
  { d with filenames := pySorted filenames }

/-- `Dataset.get_filenames`: returns the stored filename list. -/
def Dataset.get_filenames (d : Dataset) : List String := d.filenames

/-- `Dataset.get_data`: sorts the stored filename list in place and hands it to
`RepertoireGenerator.build_generator`, which iterates it in order; the model
returns the file list the generator iterates. -/
def Dataset.get_data_files (d : Dataset) : List String := pySorted d.filenames

/-- `Dataset.get_repertoire_count`: length of the stored filename list. -/
def Dataset.get_repertoire_count (d : Dataset) : Nat := d.filenames.length

/-- Claim C9: every `Dataset` keeps its filename list in sorted order: after
construction with any filename list and after every `set_filenames` call,
`get_filenames` returns the given filenames sorted (a sorted permutation of the
input); construction without filenames yields the empty list; and `get_data`
always iterates the repertoire files in sorted filename order (it hands the
generator a sorted permutation of the stored filenames). -/
theorem c9_dataset_filenames_sorted :
    ∀ (fs : List String) (ident : String) (mf : Option String) (d : Dataset),
      (List.Sorted strLeRel ((Dataset.init (some fs) ident mf).get_filenames) ∧
        ((Dataset.init (some fs) ident mf).get_filenames).Perm fs) ∧
      (Dataset.init none ident mf).get_filenames = [] ∧
      (List.Sorted strLeRel ((d.set_filenames fs).get_filenames) ∧
        ((d.set_filenames fs).get_filenames).Perm fs) ∧
      (List.Sorted strLeRel d.get_data_files ∧ d.get_data_files.Perm d.get_filenames) := by
  intro fs ident mf d
  refine ⟨⟨?_, ?_⟩, rfl, ⟨?_, ?_⟩, ?_, ?_⟩
  · exact pySorted_sorted fs
  · exact pySorted_perm fs
  · exact pySorted_sorted fs
  · exact pySorted_perm fs
  · exact pySorted_sorted d.filenames
  · exact pySorted_perm d.filenames

/-! ## DatasetChainFilter (from `source/preprocessing/filters/DatasetChainFilter.py`)

The filter iterates the repertoires of a dataset (in `get_data` order, i.e.
sorted filename order), keeps those whose sequences are all on the requested
chain, renames each kept repertoire's backing file into the result path, and
returns a copy of the dataset holding the new filenames.  The filesystem is
modelled as an association list from path to repertoire content, threaded
through the loop so that each load sees the renames already performed. -/

/-- The `Chain` enum is not among the verified sources; it is modelled as a
minimal enum with the name lookup (`Chain[name]`) the filter uses. -/
inductive Chain where
  | A : Chain
  | B : Chain
deriving DecidableEq

/-- Python `Chain[name]`: lookup by member name, `none` for an unknown name. -/
def Chain.fromName (s : String) : Option Chain :=
  if s = "A" then some Chain.A else if s = "B" then some Chain.B else none

structure SequenceMetadata where
  chain : Chain
deriving DecidableEq

structure ReceptorSequence where
  metadata : SequenceMetadata
deriving DecidableEq

structure Repertoire where
  identifier : String
  sequences : List ReceptorSequence
deriving DecidableEq

/-- Filesystem model: existing files with their repertoire content. -/
abbrev FileSys := List (String × Repertoire)

def fsLookup (fs : FileSys) (path : String) : Option Repertoire :=
  (fs.find? (fun e => decide (e.1 = path))).map Prod.snd

/-- `os.rename old dst`: every file stored at `old` is re-keyed to `dst`. -/
def fsRename (fs : FileSys) (old dst : String) : FileSys :=
  fs.map (fun e => if e.1 = old then (dst, e.2) else e)

def emptyRep : Repertoire := ⟨"", []⟩

/-- Loading a repertoire file (missing files are out of the model's scope and
yield a junk value). -/
def loadRep (fs : FileSys) (path : String) : Repertoire :=
  (fsLookup fs path).getD emptyRep

/-- The filter's keep condition: every sequence's chain equals
`Chain[keep_chain.upper()]`. -/
def keepRep (keep_chain : String) (r : Repertoire) : Bool :=
  r.sequences.all (fun s => Chain.fromName keep_chain.toUpper = some s.metadata.chain)

/-- The new backing-file name of a kept repertoire. -/
def newRepName (result_path : String) (r : Repertoire) : String :=
  result_path ++ r.identifier ++ ".pickle"

/-- The `for index, repertoire in enumerate(dataset.get_data())` loop of
`DatasetChainFilter.process`: collects the new filenames and indices of the
kept repertoires while renaming their files. -/
def chainFilterLoop (result_path keep : String) :
    Nat → List String → FileSys → (List String × List Nat × FileSys)
  | _, [], fs => ([], [], fs)
  | index, file :: rest, fs =>
      let rep := loadRep fs file
      if keepRep keep rep then
        let filename := newRepName result_path rep
        let r := chainFilterLoop result_path keep (index + 1) rest (fsRename fs file filename)
        (filename :: r.1, index :: r.2.1, r.2.2)
      else
        chainFilterLoop result_path keep (index + 1) rest fs

/-- `DatasetChainFilter.process`.  The deep copy of the input dataset is value
semantics in the model; `build_new_metadata` is not among the verified sources
and is passed in as an opaque function.  Per `Dataset.get_data`, the loop
iterates the sorted filename list, and `dataset.get_filenames()[index]` equals
the iterated filename because `get_data` has sorted the stored list in place. -/
def DatasetChainFilter.process (bnm : Dataset → List Nat → String → Option String)
    (fs : FileSys) (dataset : Dataset) (keep_chain result_path : String) :
    Dataset × FileSys :=
  let processed := dataset
  let r := chainFilterLoop result_path keep_chain 0 dataset.get_data_files fs
  let processed := { processed with metadata_file := bnm processed r.2.1 result_path }
  (processed.set_filenames r.1, r.2.2)

theorem fsLookup_rename_self (fs : FileSys) (old dst : String) (h : dst ≠ old) :
    fsLookup (fsRename fs old dst) old = none := by
  induction fs with
  | nil => rfl
  | cons e rest ih =>
      by_cases he : e.1 = old
      · simp only [fsRename, List.map_cons, if_pos he, fsLookup, List.find?_cons,
          decide_eq_false h] at *
        exact ih
      · simp only [fsRename, List.map_cons, if_neg he, fsLookup, List.find?_cons,
          decide_eq_false he] at *
        exact ih

theorem fsLookup_rename_ne (fs : FileSys) (old dst g : String) (h1 : g ≠ old) (h2 : g ≠ dst) :
    fsLookup (fsRename fs old dst) g = fsLookup fs g := by
  induction fs with
  | nil => rfl
  | cons e rest ih =>
      by_cases he : e.1 = old
      · have hd : dst ≠ g := fun hx => h2 hx.symm
        have hg : e.1 ≠ g := fun hx => h1 (hx ▸ he ▸ rfl)
        simp only [fsRename, List.map_cons, if_pos he, fsLookup, List.find?_cons,
          decide_eq_false hd, decide_eq_false hg] at *
        exact ih
      · by_cases hg : e.1 = g
        · simp only [fsRename, List.map_cons, if_neg he, fsLookup, List.find?_cons,
            decide_eq_true hg]
        · simp only [fsRename, List.map_cons, if_neg he, fsLookup, List.find?_cons,
            decide_eq_false hg] at *
          exact ih

theorem chainFilterLoop_spec (rp keep : String) (content : String → Repertoire) :
    ∀ (files : List String) (index : Nat) (fs : FileSys),
      (∀ f ∈ files, fsLookup fs f = some (content f)) →
      files.Nodup →
      (∀ f ∈ files, ∀ g ∈ files, newRepName rp (content g) ≠ f) →
      ((chainFilterLoop rp keep index files fs).1
          = (files.filter (fun f => keepRep keep (content f))).map
              (fun f => newRepName rp (content f))
        ∧ (∀ f ∈ files, keepRep keep (content f) = true →
              fsLookup (chainFilterLoop rp keep index files fs).2.2 f = none)
        ∧ (∀ g, fsLookup fs g = none →
              (∀ f ∈ files, newRepName rp (content f) ≠ g) →
              fsLookup (chainFilterLoop rp keep index files fs).2.2 g = none))
  | [], index, fs, _, _, _ => by
      simp [chainFilterLoop]
  | file :: rest, index, fs, hc, hnd, hfr => by
      have hcf : loadRep fs file = content file := by
        simp [loadRep, hc file (List.mem_cons_self _ _)]
      have hnodup := List.nodup_cons.mp hnd
      by_cases hk : keepRep keep (content file) = true
      · have hnew_ne : newRepName rp (content file) ≠ file :=
          hfr file (List.mem_cons_self _ _) file (List.mem_cons_self _ _)
        have hc1 : ∀ g ∈ rest, fsLookup (fsRename fs file (newRepName rp (content file))) g
            = some (content g) := by
          intro g hg
          rw [fsLookup_rename_ne]
          · exact hc g (List.mem_cons_of_mem _ hg)
          · exact fun hx => hnodup.1 (hx ▸ hg)
          · exact fun hx =>
              hfr g (List.mem_cons_of_mem _ hg) file (List.mem_cons_self _ _) hx.symm
        obtain ⟨ih1, ih2, ih3⟩ := chainFilterLoop_spec rp keep content rest (index + 1)
          (fsRename fs file (newRepName rp (content file))) hc1 hnodup.2
          (fun f hf g hg => hfr f (List.mem_cons_of_mem _ hf) g (List.mem_cons_of_mem _ hg))
        refine ⟨?_, ?_, ?_⟩
        · simp only [chainFilterLoop, hcf, if_pos hk, List.filter_cons, hk, List.map_cons,
            if_pos rfl]
          rw [ih1]
          simp
        · intro f hf hkf
          simp only [chainFilterLoop, hcf, if_pos hk]
          rcases List.mem_cons.mp hf with h | h
          · subst h
            refine ih3 f (fsLookup_rename_self fs f _ hnew_ne) ?_
            exact fun f' hf' => hfr f (List.mem_cons_self _ _) f' (List.mem_cons_of_mem _ hf')
          · exact ih2 f h hkf
        · intro g hgnone hgnew
          simp only [chainFilterLoop, hcf, if_pos hk]
          have hgfile : g ≠ file := by
            intro hx
            rw [hx, hc file (List.mem_cons_self _ _)] at hgnone
            exact Option.noConfusion hgnone
          have hgdst : g ≠ newRepName rp (content file) :=
            fun hx => hgnew file (List.mem_cons_self _ _) hx.symm
          refine ih3 g ?_ (fun f hf => hgnew f (List.mem_cons_of_mem _ hf))
          rw [fsLookup_rename_ne fs file _ g hgfile hgdst]
          exact hgnone
      · obtain ⟨ih1, ih2, ih3⟩ := chainFilterLoop_spec rp keep content rest (index + 1) fs
          (fun g hg => hc g (List.mem_cons_of_mem _ hg)) hnodup.2
          (fun f hf g hg => hfr f (List.mem_cons_of_mem _ hf) g (List.mem_cons_of_mem _ hg))
        refine ⟨?_, ?_, ?_⟩
        · have hkb : keepRep keep (content file) = false := Bool.eq_false_iff.mpr hk
          simp [chainFilterLoop, hcf, hkb, List.filter_cons, ih1]
        · intro f hf hkf
          simp only [chainFilterLoop, hcf, if_neg hk]
          rcases List.mem_cons.mp hf with h | h
          · exact absurd (h ▸ hkf) hk
          · exact ih2 f h hkf
        · intro g hgnone hgnew
          simp only [chainFilterLoop, hcf, if_neg hk]
          exact ih3 g hgnone (fun f hf => hgnew f (List.mem_cons_of_mem _ hf))

/-- Claim C10: `DatasetChainFilter.process` returns a new (deep-copied, here:
freshly built) dataset whose filename list consists of exactly the kept
repertoires — those in which every sequence's chain equals `keep_chain` — under
their new backing-file names; the input dataset value (filename list,
identifier, metadata file) is untouched, the copied identifier being preserved
on the output; and the kept repertoires' backing files are renamed on disk, so
the input dataset's recorded paths for those repertoires no longer point to
existing files.  Side conditions: every recorded file exists, the recorded
filenames are duplicate-free, and the result path is fresh (no new name
collides with a recorded filename). -/
theorem c10_chain_filter_process (bnm : Dataset → List Nat → String → Option String)
    (fs : FileSys) (d : Dataset) (keep rp : String)
    (hpres : ∀ f ∈ d.get_data_files, fsLookup fs f = some (loadRep fs f))
    (hnd : d.get_data_files.Nodup)
    (hfr : ∀ f ∈ d.get_data_files, ∀ g ∈ d.get_data_files,
      newRepName rp (loadRep fs g) ≠ f) :
    ((DatasetChainFilter.process bnm fs d keep rp).1.get_filenames).Perm
        ((d.get_data_files.filter (fun f => keepRep keep (loadRep fs f))).map
          (fun f => newRepName rp (loadRep fs f)))
      ∧ List.Sorted strLeRel ((DatasetChainFilter.process bnm fs d keep rp).1.get_filenames)
      ∧ (DatasetChainFilter.process bnm fs d keep rp).1.id = d.id
      ∧ ∀ f ∈ d.get_data_files, keepRep keep (loadRep fs f) = true →
          fsLookup (DatasetChainFilter.process bnm fs d keep rp).2 f = none := by
  obtain ⟨h1, h2, _⟩ :=
    chainFilterLoop_spec rp keep (fun f => loadRep fs f) d.get_data_files 0 fs hpres hnd hfr
  refine ⟨?_, ?_, rfl, ?_⟩
  · simp only [DatasetChainFilter.process, Dataset.get_filenames, Dataset.set_filenames]
    rw [h1]
    exact pySorted_perm _
  · simp only [DatasetChainFilter.process, Dataset.get_filenames, Dataset.set_filenames]
    exact pySorted_sorted _
  · intro f hf hkf
    simpa only [DatasetChainFilter.process] using h2 f hf hkf

/-- Concrete repertoire on chain A only. -/
def c10Rep1 : Repertoire := ⟨"id1", [⟨⟨Chain.A⟩⟩]⟩

/-- Concrete repertoire containing a chain-B sequence. -/
def c10Rep2 : Repertoire := ⟨"id2", [⟨⟨Chain.A⟩⟩, ⟨⟨Chain.B⟩⟩]⟩

def c10Dataset : Dataset := Dataset.init (some ["data/r2.pkl", "data/r1.pkl"]) "d1" none

def c10Fs : FileSys := [("data/r1.pkl", c10Rep1), ("data/r2.pkl", c10Rep2)]

theorem c10_chain_filter_process_witness :
    (∀ f ∈ c10Dataset.get_data_files, fsLookup c10Fs f = some (loadRep c10Fs f)) ∧
      (((DatasetChainFilter.process (fun _ _ _ => none) c10Fs c10Dataset "a" "out/").1.get_filenames).Perm
          ((c10Dataset.get_data_files.filter (fun f => keepRep "a" (loadRep c10Fs f))).map
            (fun f => newRepName "out/" (loadRep c10Fs f)))
        ∧ List.Sorted strLeRel
            ((DatasetChainFilter.process (fun _ _ _ => none) c10Fs c10Dataset "a" "out/").1.get_filenames)
        ∧ (DatasetChainFilter.process (fun _ _ _ => none) c10Fs c10Dataset "a" "out/").1.id
            = c10Dataset.id
        ∧ ∀ f ∈ c10Dataset.get_data_files, keepRep "a" (loadRep c10Fs f) = true →
            fsLookup (DatasetChainFilter.process (fun _ _ _ => none) c10Fs c10Dataset "a" "out/").2 f
              = none) :=
  ⟨by decide,
    c10_chain_filter_process (fun _ _ _ => none) c10Fs c10Dataset "a" "out/"
      (by decide) (by decide) (by decide)⟩

/-! ## HPOptimizationProcess (from `source/workflows/processes/HPOptimizationProcess.py`)

The orchestrator is embedded function by function.  Every call it makes to a
collaborator (splitter, encoder, trainer, assessor, the ML sub-process of an
inner fold, a report) and every output it produces (path creation, stdout
lines) is recorded in a list of events, so each embedded function returns its
value together with the event trace it generates; the mutable search-strategy
object is threaded as explicit state.  Exceptions are modelled with `Except`:
only report generation and the unimplemented performance report can raise in
the verified source, and an error short-circuits the remaining work exactly
where a Python exception would propagate. -/

abbrev Label := String

/-- A performance record: mapping from label name to scalar metric value. -/
abbrev PerfRecord := List (Label × ℚ)

/-- Candidate hyper-parameter settings and fitted methods are opaque tokens to
the orchestrator. -/
abbrev HPSetting := Nat

abbrev MLMethod := Nat

abbrev Err := String

/-- Python `perf[label]` on the dicts the process builds and consumes. -/
def dictGet (perf : PerfRecord) (label : Label) : ℚ :=
  ((perf.find? (fun e => decide (e.1 = label))).map Prod.snd).getD 0

/-- `"{}".format(hp_setting)`. -/
def settingName (s : HPSetting) : String := toString s

def dfltDataset : Dataset := ⟨"", [], none, none⟩

/-- Encoder parameters as assembled by `encode_dataset` (the encoder model
itself travels inside the opaque setting token). -/
structure EncoderParams where
  result_path : String
  batch_size : Nat
  learn_model : Bool
  filename : String
  labels : List Label
deriving DecidableEq

/-- One event per collaborator call or output of the orchestrator. -/
inductive Event where
  | pathBuild (path : String)
  | strategyFirst
  | strategyFeedback (hp_setting : HPSetting) (performance : PerfRecord)
  | strategyOptimal
  | settingRun (hp_setting : HPSetting) (train_dataset test_dataset : Dataset)
      (run_id : Nat) (path : String)
  | encodeCall (dataset : Dataset) (hp_setting : HPSetting) (params : EncoderParams)
  | trainCall (dataset : Dataset) (hp_setting : HPSetting) (path : String)
  | assessCall (method : MLMethod) (dataset : Dataset) (run : Nat) (path : String)
  | dataReport (report : Nat) (dataset : Dataset) (path : String)
  | modelReport (report : Nat) (train_dataset test_dataset : Dataset)
      (method : MLMethod) (path : String)
  | stdout (line : String)
deriving DecidableEq

/-- Modelled from the spec: the `HPOptimizationStrategy` interface (its
implementation is not among the verified sources).  The stateful Python object
is explicit state passing over a state type `σ`: `get_next_setting()` with no
arguments is `getNextFirst`, `get_next_setting(setting, performance)` is
`getNextFeedback`, and `get_optimal_hps()` is `getOptimal`. -/
structure Strategy (σ : Type) where
  getNextFirst : σ → Option HPSetting × σ
  getNextFeedback : σ → HPSetting → PerfRecord → Option HPSetting × σ
  getOptimal : σ → HPSetting

/-- The report identifiers bundled on a `SplitConfig`. -/
structure ReportConfig where
  data_split_reports : List Nat
  optimal_model_reports : List Nat
  performance_reports : List Nat
  data_reports : List Nat
  model_reports : List Nat
deriving DecidableEq

structure SplitConfig where
  split_strategy_name : String
  split_count : Nat
  training_percentage : ℚ
  label_to_balance : Option Label
  reports : ReportConfig
deriving DecidableEq

/-- The collaborators the orchestrator calls, all deterministic functions (the
spec's section 7 assumes every step deterministic given identical inputs). -/
structure Env where
  dataSplitterRun : Dataset → SplitConfig → List Dataset × List Dataset
  dataEncoderRun : Dataset → HPSetting → EncoderParams → Dataset
  mlTrainerRun : HPSetting → Dataset → List Label → String → MLMethod
  mlAssessmentRun : MLMethod → Dataset → Nat → String → String → PerfRecord
  mlProcessRun : Dataset → Dataset → HPSetting → Nat → String → PerfRecord
  dataReportGen : Nat → Dataset → String → Except Err Unit
  modelReportGen : Nat → Dataset → Dataset → MLMethod → String → Except Err Unit

/-- The fields `HPOptimizationProcess.__init__` stores (`batch_size` is set to
10 there); `fuel` bounds the strategy loop, whose termination the Python
`while` leaves to the strategy. -/
structure HPProc (σ : Type) where
  dataset : Dataset
  hp_strategy : Strategy σ
  hp_settings : List HPSetting
  assessment : SplitConfig
  selection : SplitConfig
  metrics : List String
  labels : List Label
  path : String
  batch_size : Nat := 10
  fuel : Nat

/-- `split_data`: builds `DataSplitterParams` from the split config and calls
`DataSplitter.run`. -/
def split_data {σ : Type} (env : Env) (_p : HPProc σ) (dataset : Dataset)
    (split_config : SplitConfig) : List Dataset × List Dataset :=
  env.dataSplitterRun dataset split_config

/-- `encode_dataset`: one `DataEncoder.run` call with the parameters the
source assembles. -/
def encode_dataset {σ : Type} (env : Env) (p : HPProc σ) (dataset : Dataset)
    (hp_setting : HPSetting) (path : String) (learn_model : Bool) : Dataset × List Event :=
  let params : EncoderParams :=
    ⟨path, p.batch_size, learn_model,
      if learn_model then "train_dataset.pkl" else "test_dataset.pkl", p.labels⟩
  (env.dataEncoderRun dataset hp_setting params, [.encodeCall dataset hp_setting params])

/-- `train_optimal_method`: one `MLMethodTrainer.run` call on the given
(encoded) dataset with the setting's method. -/
def train_optimal_method {σ : Type} (env : Env) (p : HPProc σ) (dataset : Dataset)
    (hp_setting : HPSetting) (path : String) : MLMethod × List Event :=
  (env.mlTrainerRun hp_setting dataset p.labels (path ++ "/ml_method/"),
    [.trainCall dataset hp_setting (path ++ "/ml_method/")])

def allPredictionsPath {σ : Type} (p : HPProc σ) : String :=
  p.path ++ "assessment_" ++ p.assessment.split_strategy_name ++ "/all_predictions.csv"

/-- `assess_performance`: one `MLMethodAssessment.run` call. -/
def assess_performance {σ : Type} (env : Env) (p : HPProc σ) (optimal_method : MLMethod)
    (dataset : Dataset) (run : Nat) (current_path : String) : PerfRecord × List Event :=
  (env.mlAssessmentRun optimal_method dataset run current_path (allPredictionsPath p),
    [.assessCall optimal_method dataset run current_path])

/-- `run_data_report`: deep-copies the report, attaches dataset and path and
generates; generation may raise. -/
def run_data_report (env : Env) (report : Nat) (dataset : Dataset) (path : String) :
    Except Err Unit × List Event :=
  (env.dataReportGen report dataset path, [.dataReport report dataset path])

/-- `run_model_report`: deep-copies the report, attaches datasets, method and
path and generates; generation may raise. -/
def run_model_report (env : Env) (report : Nat) (train_dataset test_dataset : Dataset)
    (method : MLMethod) (path : String) : Except Err Unit × List Event :=
  (env.modelReportGen report train_dataset test_dataset method path,
    [.modelReport report train_dataset test_dataset method path])

/-- `run_performance_report` raises `NotImplementedError` unconditionally. -/
def run_performance_report (_report : Nat) (_method : MLMethod)
    (_train_dataset _test_dataset : Dataset) (_path : String) : Except Err Unit × List Event :=
  (.error "NotImplementedError", [])

/-- A Python `for` loop over fallible calls: a raise stops the remaining
iterations and propagates. -/
def runList {α : Type} (f : α → Except Err Unit × List Event) :
    List α → Except Err Unit × List Event
  | [] => (.ok (), [])
  | a :: as =>
      match f a with
      | (.ok _, tr) =>
          let r := runList f as
          (r.1, tr ++ r.2)
      | (.error e, tr) => (.error e, tr)

/-- `run_assessment_reports`: data-split reports on train and test, then
optimal-model reports, then performance reports. -/
def run_assessment_reports {σ : Type} (env : Env) (p : HPProc σ)
    (train_dataset test_dataset : Dataset) (method : MLMethod) (path : String) :
    Except Err Unit × List Event :=
  let r1 := runList (fun report =>
      match run_data_report env report train_dataset (path ++ "train/") with
      | (.ok _, tr) =>
          let r := run_data_report env report test_dataset (path ++ "test/")
          (r.1, tr ++ r.2)
      | (.error e, tr) => (.error e, tr)) p.assessment.reports.data_split_reports
  match r1 with
  | (.error e, tr) => (.error e, tr)
  | (.ok _, tr1) =>
      let r2 := runList
        (fun report => run_model_report env report train_dataset test_dataset method path)
        p.assessment.reports.optimal_model_reports
      match r2 with
      | (.error e, tr2) => (.error e, tr1 ++ tr2)
      | (.ok _, tr2) =>
          let r3 := runList
            (fun report =>
              run_performance_report report method train_dataset test_dataset path)
            p.assessment.reports.performance_reports
          (r3.1, tr1 ++ tr2 ++ r3.2)

/-- `run_selection_reports`: data-split reports over every inner split, then
data reports on the whole selection input. -/
def run_selection_reports {σ : Type} (env : Env) (p : HPProc σ) (dataset : Dataset)
    (train_datasets test_datasets : List Dataset) (path : String) :
    Except Err Unit × List Event :=
  let r1 := runList (fun report =>
      runList (fun index =>
          match run_data_report env report (train_datasets.getD index dfltDataset)
              (path ++ "split_" ++ toString (index + 1) ++ "/train/") with
          | (.ok _, tr) =>
              let r := run_data_report env report (test_datasets.getD index dfltDataset)
                (path ++ "split_" ++ toString (index + 1) ++ "/test/")
              (r.1, tr ++ r.2)
          | (.error e, tr) => (.error e, tr))
        (List.range train_datasets.length)) p.selection.reports.data_split_reports
  match r1 with
  | (.error e, tr) => (.error e, tr)
  | (.ok _, tr1) =>
      let r2 := runList (fun report => run_data_report env report dataset path)
        p.selection.reports.data_reports
      (r2.1, tr1 ++ r2.2)

/-- `run_setting`: builds the per-fold path and runs the ML sub-process. -/
def run_setting {σ : Type} (env : Env) (_p : HPProc σ) (hp_setting : HPSetting)
    (train_dataset test_dataset : Dataset) (run_id : Nat) (current_path : String) :
    PerfRecord × List Event :=
  let path := current_path ++ settingName hp_setting ++ "/fold_" ++ toString run_id ++ "/"
  (env.mlProcessRun train_dataset test_dataset hp_setting run_id path,
    [.pathBuild path, .settingRun hp_setting train_dataset test_dataset run_id path])

/-- `get_average_performance`: per registered label, sum of the per-fold values
divided by the number of folds. -/
def get_average_performance {σ : Type} (p : HPProc σ) (metrics_per_label : List PerfRecord) :
    PerfRecord :=
  p.labels.map (fun label =>
    (label,
      (metrics_per_label.map (fun perf => dictGet perf label)).sum
        / (metrics_per_label.length : ℚ)))

/-- The `for index in range(self.selection.split_count)` loop of
`test_hp_setting`. -/
def settingFolds {σ : Type} (env : Env) (p : HPProc σ) (hp_setting : HPSetting)
    (train_datasets test_datasets : List Dataset) (current_path : String) :
    Nat → Nat → List PerfRecord × List Event
  | _, 0 => ([], [])
  | index, n + 1 =>
      let r := run_setting env p hp_setting (train_datasets.getD index dfltDataset)
          (test_datasets.getD index dfltDataset) (index + 1) current_path
      let rest := settingFolds env p hp_setting train_datasets test_datasets current_path
        (index + 1) n
      (r.1 :: rest.1, r.2 ++ rest.2)

/-- `test_hp_setting`: run the setting on every inner fold and average. -/
def test_hp_setting {σ : Type} (env : Env) (p : HPProc σ) (hp_setting : HPSetting)
    (train_datasets test_datasets : List Dataset) (current_path : String) :
    PerfRecord × List Event :=
  let folds := settingFolds env p hp_setting train_datasets test_datasets current_path 0
    p.selection.split_count
  (get_average_performance p folds.1, folds.2)

/-- The `while hp_setting is not None` loop of `run_selection`; `fuel` bounds
the number of iterations (the Boolean result is `false` when fuel ran out,
which models a non-terminating strategy). -/
def hpLoop {σ : Type} (env : Env) (p : HPProc σ) (train_datasets test_datasets : List Dataset)
    (path : String) : Nat → Option HPSetting → σ → σ × List Event × Bool
  | _, none, g => (g, [], true)
  | 0, some _, g => (g, [], false)
  | fuel + 1, some hp_setting, g =>
      let t := test_hp_setting env p hp_setting train_datasets test_datasets path
      let fb := p.hp_strategy.getNextFeedback g hp_setting t.1
      let rest := hpLoop env p train_datasets test_datasets path fuel fb.1 fb.2
      (rest.1, t.2 ++ [.strategyFeedback hp_setting t.1] ++ rest.2.1, rest.2.2)

/-- `run_selection`: split the training fold, drive the strategy until
exhaustion, run the selection reports, return the strategy's optimum. -/
def run_selection {σ : Type} (env : Env) (p : HPProc σ) (train_dataset : Dataset)
    (current_path : String) (g : σ) : Except Err HPSetting × σ × List Event :=
  let split := split_data env p train_dataset p.selection
  let path := current_path ++ "selection_" ++ p.selection.split_strategy_name ++ "/"
  let first := p.hp_strategy.getNextFirst g
  let loop := hpLoop env p split.1 split.2 path p.fuel first.1 first.2
  match loop.2.2 with
  | false => (.error "fuel exhausted", loop.1, [.pathBuild path, .strategyFirst] ++ loop.2.1)
  | true =>
      let rep := run_selection_reports env p train_dataset split.1 split.2 (path ++ "reports/")
      match rep.1 with
      | .error e => (.error e, loop.1,
          [.pathBuild path, .strategyFirst] ++ loop.2.1 ++ rep.2)
      | .ok _ => (.ok (p.hp_strategy.getOptimal loop.1), loop.1,
          [.pathBuild path, .strategyFirst] ++ loop.2.1 ++ rep.2 ++ [.strategyOptimal])

/-- The path `"{}assessment_{}/run_{}/"` of an outer fold. -/
def foldPath {σ : Type} (p : HPProc σ) (run : Nat) : String :=
  p.path ++ "assessment_" ++ p.assessment.split_strategy_name ++ "/run_" ++ toString run ++ "/"

/-- `run_assessment_fold`: selection on the training fold, encode train in
learn mode, train the optimal method, encode test in apply mode, assess,
reports. -/
def run_assessment_fold {σ : Type} (env : Env) (p : HPProc σ)
    (train_dataset test_dataset : Dataset) (run : Nat) (g : σ) :
    Except Err PerfRecord × σ × List Event :=
  let current_path := foldPath p run
  let sel := run_selection env p train_dataset current_path g
  match sel.1 with
  | .error e => (.error e, sel.2.1, [.pathBuild current_path] ++ sel.2.2)
  | .ok optimal_hp_setting =>
      let enc_train := encode_dataset env p train_dataset optimal_hp_setting current_path true
      let method := train_optimal_method env p enc_train.1 optimal_hp_setting
        (current_path ++ "optimal/")
      let enc_test := encode_dataset env p test_dataset optimal_hp_setting current_path false
      let perf := assess_performance env p method.1 enc_test.1 run current_path
      let reports := run_assessment_reports env p train_dataset test_dataset method.1
        (current_path ++ "reports/")
      let result : Except Err PerfRecord :=
        match reports.1 with
        | .error e => .error e
        | .ok _ => .ok perf.1
      (result, sel.2.1,
        [.pathBuild current_path] ++ sel.2.2 ++ enc_train.2 ++ method.2 ++ enc_test.2
          ++ perf.2 ++ reports.2)

/-- The `for index in range(self.assessment.split_count)` loop of
`run_assessment`. -/
def assessmentFolds {σ : Type} (env : Env) (p : HPProc σ)
    (train_datasets test_datasets : List Dataset) :
    Nat → Nat → σ → Except Err (List PerfRecord) × σ × List Event
  | _, 0, g => (.ok [], g, [])
  | index, n + 1, g =>
      let r := run_assessment_fold env p (train_datasets.getD index dfltDataset)
          (test_datasets.getD index dfltDataset) (index + 1) g
      match r.1 with
      | .error e => (.error e, r.2.1, r.2.2)
      | .ok perf =>
          let rest := assessmentFolds env p train_datasets test_datasets (index + 1) n r.2.1
          match rest.1 with
          | .error e => (.error e, rest.2.1, r.2.2 ++ rest.2.2)
          | .ok perfs => (.ok (perf :: perfs), rest.2.1, r.2.2 ++ rest.2.2)

def perfHeader {σ : Type} (p : HPProc σ) : String :=
  p.labels.foldl (fun acc label => acc ++ label ++ "\t") ("run" ++ "\t")

def perfRow {σ : Type} (p : HPProc σ) (index : Nat) (performance : PerfRecord) : String :=
  p.labels.foldl (fun acc label => acc ++ toString (dictGet performance label) ++ "\t")
    (toString (index + 1) ++ "\t")

def avgLine (performances : List PerfRecord) (label : Label) : String :=
  "Label: " ++ label ++ ", average balanced accuracy: "
    ++ toString ((performances.map (fun perf => dictGet perf label)).sum
        / (performances.length : ℚ))

/-- `print_performances`: the summary written to standard output — the banner,
the tab-separated header, one row of per-label scores per fold, a closing rule,
and one per-label arithmetic-average line. -/
def print_performances {σ : Type} (p : HPProc σ) (performances : List PerfRecord) : List Event :=
  [.stdout "------ Assessment scores (balanced accuracy) per label ------",
   .stdout (perfHeader p)]
  ++ performances.enum.map (fun e => .stdout (perfRow p e.1 e.2))
  ++ [.stdout "--------------------------------------------------------------"]
  ++ p.labels.map (fun label => .stdout (avgLine performances label))

/-- `run_assessment`: split the dataset, run every outer fold in order, print
the summary, return the per-fold performances. -/
def run_assessment {σ : Type} (env : Env) (p : HPProc σ) (g : σ) :
    Except Err (List PerfRecord) × σ × List Event :=
  let split := split_data env p p.dataset p.assessment
  let folds := assessmentFolds env p split.1 split.2 0 p.assessment.split_count g
  match folds.1 with
  | .error e => (.error e, folds.2.1, folds.2.2)
  | .ok fold_performances =>
      (.ok fold_performances, folds.2.1, folds.2.2 ++ print_performances p fold_performances)

/-- `HPOptimizationProcess.run`. -/
def HPProc.run {σ : Type} (env : Env) (p : HPProc σ) (g : σ) :
    Except Err (List PerfRecord) × σ × List Event :=
  run_assessment env p g

theorem settingFolds_fst {σ : Type} (env : Env) (p : HPProc σ) (s : HPSetting)
    (tr te : List Dataset) (cp : String) :
    ∀ (n start : Nat), (settingFolds env p s tr te cp start n).1
      = (List.range n).map (fun i =>
          (run_setting env p s (tr.getD (start + i) dfltDataset)
            (te.getD (start + i) dfltDataset) (start + i + 1) cp).1)
  | 0, _ => by simp [settingFolds]
  | n + 1, start => by
      have harith : ∀ i, start + 1 + i = start + (i + 1) := fun i => by omega
      simp only [settingFolds, settingFolds_fst env p s tr te cp n (start + 1),
        List.range_succ_eq_map, List.map_cons, List.map_map, Function.comp_def,
        Nat.succ_eq_add_one, harith, Nat.add_zero]

/-- Claim C5: for every candidate setting, the performance record fed back into
the search strategy maps each registered label to the arithmetic mean of that
label's per-fold metric values over the `selection.split_count` inner folds:
the sum of the fold values divided by the number of folds, per label.  (The
per-fold value of fold `index` is what the inner ML process returns for the
`index`-th inner train/test pair.) -/
theorem c5_selection_feedback_is_mean {σ : Type} (env : Env) (p : HPProc σ)
    (hp_setting : HPSetting) (train_datasets test_datasets : List Dataset)
    (current_path : String) :
    (test_hp_setting env p hp_setting train_datasets test_datasets current_path).1
      = p.labels.map (fun label =>
          (label,
            ((List.range p.selection.split_count).map (fun index =>
                dictGet
                  (env.mlProcessRun (train_datasets.getD index dfltDataset)
                    (test_datasets.getD index dfltDataset) hp_setting (index + 1)
                    (current_path ++ settingName hp_setting ++ "/fold_"
                      ++ toString (index + 1) ++ "/"))
                  label)).sum
              / (p.selection.split_count : ℚ))) := by
  simp only [test_hp_setting, get_average_performance,
    settingFolds_fst env p hp_setting train_datasets test_datasets current_path
      p.selection.split_count 0,
    run_setting, List.map_map, List.length_map, List.length_range, Nat.zero_add,
    Function.comp_def]

/-! ### Trace classifiers and classification lemmas -/

/-- The encode calls recorded in a trace, with their arguments. -/
def encOf : Event → Option (Dataset × HPSetting × EncoderParams)
  | .encodeCall dataset hp_setting params => some (dataset, hp_setting, params)
  | _ => none

def encodeCalls (tr : List Event) : List (Dataset × HPSetting × EncoderParams) :=
  tr.filterMap encOf

/-- Events that are inputs to, or calls of, the selection loop and the search
strategy: the strategy calls and the inner-fold ML-process runs (whose
arguments are the datasets the selection loop feeds to training). -/
def isSelectionInput : Event → Bool
  | .strategyFirst => true
  | .strategyFeedback _ _ => true
  | .strategyOptimal => true
  | .settingRun _ _ _ _ _ => true
  | _ => false

def selectionInputs (tr : List Event) : List Event := tr.filter isSelectionInput

/-- The strategy-protocol events of a trace. -/
def isStratEvent : Event → Bool
  | .strategyFirst => true
  | .strategyFeedback _ _ => true
  | .strategyOptimal => true
  | _ => false

def stratEvents (tr : List Event) : List Event := tr.filter isStratEvent

def isReportEvent : Event → Bool
  | .dataReport _ _ _ => true
  | .modelReport _ _ _ _ _ => true
  | _ => false

def isDataReportEvent : Event → Bool
  | .dataReport _ _ _ => true
  | _ => false

/-- Every event a fallible report loop emits comes from one of its calls. -/
theorem runList_events {α : Type} (f : α → Except Err Unit × List Event) (P : Event → Prop)
    (hf : ∀ a, ∀ e ∈ (f a).2, P e) : ∀ (l : List α), ∀ e ∈ (runList f l).2, P e
  | [], e, he => by simp [runList] at he
  | a :: as, e, he => by
      rcases hfa : f a with ⟨r, tr⟩
      cases r with
      | ok u =>
          simp only [runList, hfa, List.mem_append] at he
          rcases he with h | h
          · exact hf a e (by rw [hfa]; exact h)
          · exact runList_events f P hf as e h
      | error err =>
          simp only [runList, hfa] at he
          exact hf a e (by rw [hfa]; exact he)

theorem run_assessment_reports_events {σ : Type} (env : Env) (p : HPProc σ)
    (train_dataset test_dataset : Dataset) (method : MLMethod) (path : String) :
    ∀ e ∈ (run_assessment_reports env p train_dataset test_dataset method path).2,
      isReportEvent e = true := by
  intro e he
  have h1 : ∀ report, ∀ e ∈ ((fun report =>
      match run_data_report env report train_dataset (path ++ "train/") with
      | (.ok _, tr) =>
          let r := run_data_report env report test_dataset (path ++ "test/")
          (r.1, tr ++ r.2)
      | (.error e, tr) => (.error e, tr)) report).2, isReportEvent e = true := by
    intro report e' he'
    rcases hro : env.dataReportGen report train_dataset (path ++ "train/") with err | u
    · simp only [run_data_report, hro] at he'
      simp at he'
      subst he'
      rfl
    · simp only [run_data_report, hro] at he'
      simp at he'
      rcases he' with h | h <;> (subst h; rfl)
  have h2 : ∀ report, ∀ e ∈ (run_model_report env report train_dataset test_dataset method
      path).2, isReportEvent e = true := by
    intro report e' he'
    simp only [run_model_report, List.mem_singleton] at he'
    subst he'
    rfl
  have h3 : ∀ report, ∀ e ∈ (run_performance_report report method train_dataset test_dataset
      path).2, isReportEvent e = true := by
    intro report e' he'
    simp [run_performance_report] at he'
  rcases hr1 : runList (fun report =>
      match run_data_report env report train_dataset (path ++ "train/") with
      | (.ok _, tr) =>
          let r := run_data_report env report test_dataset (path ++ "test/")
          (r.1, tr ++ r.2)
      | (.error e, tr) => (.error e, tr)) p.assessment.reports.data_split_reports
    with ⟨res1, tr1⟩
  have htr1 : ∀ e ∈ tr1, isReportEvent e = true := by
    intro e' he'
    exact runList_events _ _ h1 p.assessment.reports.data_split_reports e' (by rw [hr1]; exact he')
  cases res1 with
  | error err =>
      simp only [run_assessment_reports, hr1] at he
      exact htr1 e he
  | ok u =>
      rcases hr2 : runList (fun report => run_model_report env report train_dataset test_dataset
          method path) p.assessment.reports.optimal_model_reports with ⟨res2, tr2⟩
      have htr2 : ∀ e ∈ tr2, isReportEvent e = true := by
        intro e' he'
        exact runList_events _ _ h2 p.assessment.reports.optimal_model_reports e'
          (by rw [hr2]; exact he')
      cases res2 with
      | error err =>
          simp only [run_assessment_reports, hr1, hr2, List.mem_append] at he
          rcases he with h | h
          · exact htr1 e h
          · exact htr2 e h
      | ok u2 =>
          simp only [run_assessment_reports, hr1, hr2, List.mem_append] at he
          rcases he with (h | h) | h
          · exact htr1 e h
          · exact htr2 e h
          · exact runList_events _ (fun e => isReportEvent e = true) h3
              p.assessment.reports.performance_reports e h

theorem run_selection_reports_events {σ : Type} (env : Env) (p : HPProc σ) (dataset : Dataset)
    (train_datasets test_datasets : List Dataset) (path : String) :
    ∀ e ∈ (run_selection_reports env p dataset train_datasets test_datasets path).2,
      isDataReportEvent e = true := by
  intro e he
  have hinner : ∀ report index, ∀ e ∈ ((fun index =>
      match run_data_report env report (train_datasets.getD index dfltDataset)
          (path ++ "split_" ++ toString (index + 1) ++ "/train/") with
      | (.ok _, tr) =>
          let r := run_data_report env report (test_datasets.getD index dfltDataset)
            (path ++ "split_" ++ toString (index + 1) ++ "/test/")
          (r.1, tr ++ r.2)
      | (.error e, tr) => (.error e, tr)) index).2, isDataReportEvent e = true := by
    intro report index e' he'
    rcases hro : env.dataReportGen report (train_datasets.getD index dfltDataset)
        (path ++ "split_" ++ toString (index + 1) ++ "/train/") with err | u
    · simp only [run_data_report, hro] at he'
      simp at he'
      subst he'
      rfl
    · simp only [run_data_report, hro] at he'
      simp at he'
      rcases he' with h | h <;> (subst h; rfl)
  have h1 : ∀ report, ∀ e ∈ ((fun report =>
      runList (fun index =>
        match run_data_report env report (train_datasets.getD index dfltDataset)
            (path ++ "split_" ++ toString (index + 1) ++ "/train/") with
        | (.ok _, tr) =>
            let r := run_data_report env report (test_datasets.getD index dfltDataset)
              (path ++ "split_" ++ toString (index + 1) ++ "/test/")
            (r.1, tr ++ r.2)
        | (.error e, tr) => (.error e, tr))
        (List.range train_datasets.length)) report).2, isDataReportEvent e = true := by
    intro report e' he'
    exact runList_events _ _ (hinner report) (List.range train_datasets.length) e' he'
  have h2 : ∀ report, ∀ e ∈ (run_data_report env report dataset path).2,
      isDataReportEvent e = true := by
    intro report e' he'
    simp only [run_data_report, List.mem_singleton] at he'
    subst he'
    rfl
  rcases hr1 : runList (fun report =>
      runList (fun index =>
        match run_data_report env report (train_datasets.getD index dfltDataset)
            (path ++ "split_" ++ toString (index + 1) ++ "/train/") with
        | (.ok _, tr) =>
            let r := run_data_report env report (test_datasets.getD index dfltDataset)
              (path ++ "split_" ++ toString (index + 1) ++ "/test/")
            (r.1, tr ++ r.2)
        | (.error e, tr) => (.error e, tr))
        (List.range train_datasets.length)) p.selection.reports.data_split_reports
    with ⟨res1, tr1⟩
  have htr1 : ∀ e ∈ tr1, isDataReportEvent e = true := by
    intro e' he'
    exact runList_events _ _ h1 p.selection.reports.data_split_reports e' (by rw [hr1]; exact he')
  cases res1 with
  | error err =>
      simp only [run_selection_reports, hr1] at he
      exact htr1 e he
  | ok u =>
      simp only [run_selection_reports, hr1, List.mem_append] at he
      rcases he with h | h
      · exact htr1 e h
      · exact runList_events _ _ h2 p.selection.reports.data_reports e h

theorem settingFolds_no_encode {σ : Type} (env : Env) (p : HPProc σ) (s : HPSetting)
    (tr te : List Dataset) (cp : String) :
    ∀ (n start : Nat), ∀ e ∈ (settingFolds env p s tr te cp start n).2, encOf e = none
  | 0, _, e, he => by simp [settingFolds] at he
  | n + 1, start, e, he => by
      simp only [settingFolds, run_setting, List.append_assoc, List.cons_append,
        List.nil_append, List.mem_cons] at he
      rcases he with h | h | h
      · subst h; rfl
      · subst h; rfl
      · exact settingFolds_no_encode env p s tr te cp n (start + 1) e h

theorem hpLoop_no_encode {σ : Type} (env : Env) (p : HPProc σ) (tr te : List Dataset)
    (path : String) :
    ∀ (fuel : Nat) (cur : Option HPSetting) (g : σ),
      ∀ e ∈ (hpLoop env p tr te path fuel cur g).2.1, encOf e = none
  | _, none, _, e, he => by simp [hpLoop] at he
  | 0, some _, _, e, he => by simp [hpLoop] at he
  | fuel + 1, some s, g, e, he => by
      simp only [hpLoop, test_hp_setting, List.append_assoc, List.cons_append,
        List.nil_append, List.mem_append, List.mem_cons] at he
      rcases he with h | h | h
      · exact settingFolds_no_encode env p s tr te path p.selection.split_count 0 e h
      · subst h; rfl
      · exact hpLoop_no_encode env p tr te path fuel _ _ e h

/-- No event of the selection phase is an encode call: the selection loop
encodes only inside the opaque inner ML process, never through the
orchestrator's `encode_dataset`. -/
theorem run_selection_no_encode {σ : Type} (env : Env) (p : HPProc σ) (train_dataset : Dataset)
    (current_path : String) (g : σ) :
    ∀ e ∈ (run_selection env p train_dataset current_path g).2.2, encOf e = none := by
  intro e he
  have hloop := hpLoop_no_encode env p
    (split_data env p train_dataset p.selection).1 (split_data env p train_dataset p.selection).2
    (current_path ++ "selection_" ++ p.selection.split_strategy_name ++ "/") p.fuel
    (p.hp_strategy.getNextFirst g).1 (p.hp_strategy.getNextFirst g).2
  have hrep := run_selection_reports_events env p train_dataset
    (split_data env p train_dataset p.selection).1 (split_data env p train_dataset p.selection).2
    (current_path ++ "selection_" ++ p.selection.split_strategy_name ++ "/" ++ "reports/")
  rcases hl : (hpLoop env p (split_data env p train_dataset p.selection).1
      (split_data env p train_dataset p.selection).2
      (current_path ++ "selection_" ++ p.selection.split_strategy_name ++ "/") p.fuel
      (p.hp_strategy.getNextFirst g).1 (p.hp_strategy.getNextFirst g).2).2.2 with _ | _
  · simp only [run_selection, hl, List.append_assoc, List.cons_append, List.nil_append,
      List.mem_cons, List.mem_append, List.mem_singleton, List.not_mem_nil, or_false,
      false_or, or_assoc] at he
    rcases he with h | h | h
    · subst h; rfl
    · subst h; rfl
    · exact hloop e h
  · rcases hrr : (run_selection_reports env p train_dataset
        (split_data env p train_dataset p.selection).1
        (split_data env p train_dataset p.selection).2
        (current_path ++ "selection_" ++ p.selection.split_strategy_name ++ "/"
          ++ "reports/")).1 with err | u
    · simp only [run_selection, hl, hrr, List.append_assoc, List.cons_append,
        List.nil_append, List.mem_cons, List.mem_append, List.mem_singleton,
        List.not_mem_nil, or_false, false_or, or_assoc] at he
      rcases he with h | h | h | h
      · subst h; rfl
      · subst h; rfl
      · exact hloop e h
      · have := hrep e h
        cases e <;> simp_all [isDataReportEvent, encOf]
    · simp only [run_selection, hl, hrr, List.append_assoc, List.cons_append,
        List.nil_append, List.mem_cons, List.mem_append, List.mem_singleton,
        List.not_mem_nil, or_false, false_or, or_assoc] at he
      rcases he with h | h | h | h | h
      · subst h; rfl
      · subst h; rfl
      · exact hloop e h
      · have := hrep e h
        cases e <;> simp_all [isDataReportEvent, encOf]
      · subst h; rfl

theorem reportEvent_not_selection_input (e : Event) (h : isReportEvent e = true) :
    isSelectionInput e = false := by
  cases e <;> simp_all [isReportEvent, isSelectionInput]

theorem reportEvent_no_encode (e : Event) (h : isReportEvent e = true) : encOf e = none := by
  cases e <;> simp_all [isReportEvent, encOf]

theorem assessment_reports_no_selection_input {σ : Type} (env : Env) (p : HPProc σ)
    (train_dataset test_dataset : Dataset) (method : MLMethod) (path : String) :
    List.filter isSelectionInput
        (run_assessment_reports env p train_dataset test_dataset method path).2
      = [] := by
  rw [List.filter_eq_nil_iff]
  intro e he
  rw [reportEvent_not_selection_input e
    (run_assessment_reports_events env p train_dataset test_dataset method path e he)]
  simp

theorem assessment_reports_no_encode {σ : Type} (env : Env) (p : HPProc σ)
    (train_dataset test_dataset : Dataset) (method : MLMethod) (path : String) :
    List.filterMap encOf
        (run_assessment_reports env p train_dataset test_dataset method path).2
      = [] := by
  rw [List.filterMap_eq_nil_iff]
  intro e he
  exact reportEvent_no_encode e
    (run_assessment_reports_events env p train_dataset test_dataset method path e he)

theorem selection_no_encodeCalls {σ : Type} (env : Env) (p : HPProc σ)
    (train_dataset : Dataset) (current_path : String) (g : σ) :
    List.filterMap encOf (run_selection env p train_dataset current_path g).2.2 = [] := by
  rw [List.filterMap_eq_nil_iff]
  exact run_selection_no_encode env p train_dataset current_path g

/-- Claim C1 (leakage invariant): in every outer assessment fold, only the
outer-training fold is handed to the selection loop — everything the selection
loop and the search strategy see (the strategy calls and the inner-fold runs
with their datasets) is unchanged when the outer-test fold is replaced by any
other dataset — and the fold's encode calls are exactly two: the outer-training
fold with `learn_model = true` followed by the outer-test fold with
`learn_model = false` (apply-only), both under the setting that selection
computed from the training fold alone; in particular the outer-test fold is
never encoded in learn mode. -/
theorem c1_leakage_invariant {σ : Type} (env : Env) (p : HPProc σ)
    (train_dataset test_dataset other_test : Dataset) (run : Nat) (g : σ) (opt : HPSetting)
    (hsel : (run_selection env p train_dataset (foldPath p run) g).1 = .ok opt) :
    selectionInputs (run_assessment_fold env p train_dataset test_dataset run g).2.2
        = selectionInputs (run_assessment_fold env p train_dataset other_test run g).2.2
      ∧ encodeCalls (run_assessment_fold env p train_dataset test_dataset run g).2.2
        = [(train_dataset, opt,
              ⟨foldPath p run, p.batch_size, true, "train_dataset.pkl", p.labels⟩),
           (test_dataset, opt,
              ⟨foldPath p run, p.batch_size, false, "test_dataset.pkl", p.labels⟩)] := by
  constructor
  · simp [run_assessment_fold, hsel, encode_dataset, train_optimal_method,
      assess_performance, selectionInputs, List.filter_append, List.filter_cons,
      isSelectionInput, assessment_reports_no_selection_input]
  · simp [run_assessment_fold, hsel, encode_dataset, train_optimal_method,
      assess_performance, encodeCalls, List.filterMap_append, List.filterMap_cons,
      encOf, selection_no_encodeCalls, assessment_reports_no_encode]

/-! ### Concrete instances for witnesses and counterexamples -/

/-- Modelled from the spec: the grid-search strategy variant of
`HPOptimizationStrategy` (its source is not among the verified files).  The
state is the set of remaining candidates plus the recorded feedback; the
strategy enumerates every candidate exactly once, records the feedback, and
after exhaustion returns the candidate with the highest recorded value on the
primary label, ties broken by first-seen order.  There is no reset transition:
the remaining candidates persist across calls. -/
structure GridState where
  remaining : List HPSetting
  results : List (HPSetting × PerfRecord)
deriving DecidableEq

def gridBest (primary : Label) : List (HPSetting × PerfRecord) → Option (HPSetting × ℚ)
  | [] => none
  | (s, perf) :: rest =>
      match gridBest primary rest with
      | none => some (s, dictGet perf primary)
      | some (s', v') =>
          let v := dictGet perf primary
          if v' > v then some (s', v') else some (s, v)

def gridStrategy (primary : Label) : Strategy GridState :=
  { getNextFirst := fun g =>
      match g.remaining with
      | [] => (none, g)
      | s :: rest => (some s, ⟨rest, g.results⟩)
    getNextFeedback := fun g s perf =>
      match g.remaining with
      | [] => (none, ⟨[], g.results ++ [(s, perf)]⟩)
      | s' :: rest => (some s', ⟨rest, g.results ++ [(s, perf)]⟩)
    getOptimal := fun g => ((gridBest primary g.results).map Prod.fst).getD 0 }

/-- A deterministic collaborator environment with trivial behaviour. -/
def trivEnv : Env :=
  { dataSplitterRun := fun d _ => ([d], [d])
    dataEncoderRun := fun d _ _ => d
    mlTrainerRun := fun _ _ _ _ => 0
    mlAssessmentRun := fun _ _ _ _ _ => [("l", 1)]
    mlProcessRun := fun _ _ _ _ _ => [("l", 1)]
    dataReportGen := fun _ _ _ => .ok ()
    modelReportGen := fun _ _ _ _ _ => .ok () }

def emptyReports : ReportConfig := ⟨[], [], [], [], []⟩

def cfg1 : SplitConfig := ⟨"random", 1, 7 / 10, none, emptyReports⟩

def dsMain : Dataset := ⟨"main", ["f1"], none, none⟩

def dsTrainW : Dataset := ⟨"train", ["f2"], none, none⟩

def dsTestW : Dataset := ⟨"test", ["f3"], none, none⟩

def dsTestW2 : Dataset := ⟨"other", ["f4"], none, none⟩

def witProc : HPProc GridState :=
  { dataset := dsMain, hp_strategy := gridStrategy "l", hp_settings := [0]
    assessment := cfg1, selection := cfg1, metrics := ["balanced_accuracy"]
    labels := ["l"], path := "p/", batch_size := 10, fuel := 3 }

def g0 : GridState := ⟨[0], []⟩

theorem c1_leakage_invariant_witness :
    ((run_selection trivEnv witProc dsTrainW (foldPath witProc 1) g0).1 = .ok 0) ∧
      (selectionInputs (run_assessment_fold trivEnv witProc dsTrainW dsTestW 1 g0).2.2
          = selectionInputs (run_assessment_fold trivEnv witProc dsTrainW dsTestW2 1 g0).2.2
        ∧ encodeCalls (run_assessment_fold trivEnv witProc dsTrainW dsTestW 1 g0).2.2
          = [(dsTrainW, 0,
                ⟨foldPath witProc 1, witProc.batch_size, true, "train_dataset.pkl",
                  witProc.labels⟩),
             (dsTestW, 0,
                ⟨foldPath witProc 1, witProc.batch_size, false, "test_dataset.pkl",
                  witProc.labels⟩)]) :=
  ⟨rfl, c1_leakage_invariant trivEnv witProc dsTrainW dsTestW dsTestW2 1 g0 0 rfl⟩

/-- Claim C2: for every outer fold the steps run in this exact order: the
selection loop on the outer-training fold (yielding the optimal setting and the
selection trace), then encoding of the outer-training fold in learn mode, then
training of the optimal setting's method on the entire encoded outer-training
fold (a fresh `MLMethodTrainer.run` on the setting's method — no inner-fold
model is an input), then encoding of the outer-test fold in apply mode, then
assessment of the trained method on the encoded outer-test fold, then the
configured reports; and when the reports succeed the fold returns exactly the
assessment's performance record. -/
theorem c2_fold_step_order {σ : Type} (env : Env) (p : HPProc σ)
    (train_dataset test_dataset : Dataset) (run : Nat) (g : σ) (opt : HPSetting)
    (hsel : (run_selection env p train_dataset (foldPath p run) g).1 = .ok opt) :
    (run_assessment_fold env p train_dataset test_dataset run g).2.2
        = [Event.pathBuild (foldPath p run)]
          ++ (run_selection env p train_dataset (foldPath p run) g).2.2
          ++ [Event.encodeCall train_dataset opt
                ⟨foldPath p run, p.batch_size, true, "train_dataset.pkl", p.labels⟩,
              Event.trainCall
                (env.dataEncoderRun train_dataset opt
                  ⟨foldPath p run, p.batch_size, true, "train_dataset.pkl", p.labels⟩)
                opt (foldPath p run ++ "optimal/" ++ "/ml_method/"),
              Event.encodeCall test_dataset opt
                ⟨foldPath p run, p.batch_size, false, "test_dataset.pkl", p.labels⟩,
              Event.assessCall
                (env.mlTrainerRun opt
                  (env.dataEncoderRun train_dataset opt
                    ⟨foldPath p run, p.batch_size, true, "train_dataset.pkl", p.labels⟩)
                  p.labels (foldPath p run ++ "optimal/" ++ "/ml_method/"))
                (env.dataEncoderRun test_dataset opt
                  ⟨foldPath p run, p.batch_size, false, "test_dataset.pkl", p.labels⟩)
                run (foldPath p run)]
          ++ (run_assessment_reports env p train_dataset test_dataset
                (env.mlTrainerRun opt
                  (env.dataEncoderRun train_dataset opt
                    ⟨foldPath p run, p.batch_size, true, "train_dataset.pkl", p.labels⟩)
                  p.labels (foldPath p run ++ "optimal/" ++ "/ml_method/"))
                (foldPath p run ++ "reports/")).2
      ∧ ((run_assessment_reports env p train_dataset test_dataset
            (env.mlTrainerRun opt
              (env.dataEncoderRun train_dataset opt
                ⟨foldPath p run, p.batch_size, true, "train_dataset.pkl", p.labels⟩)
              p.labels (foldPath p run ++ "optimal/" ++ "/ml_method/"))
            (foldPath p run ++ "reports/")).1 = .ok ()
          → (run_assessment_fold env p train_dataset test_dataset run g).1
            = .ok (env.mlAssessmentRun
                (env.mlTrainerRun opt
                  (env.dataEncoderRun train_dataset opt
                    ⟨foldPath p run, p.batch_size, true, "train_dataset.pkl", p.labels⟩)
                  p.labels (foldPath p run ++ "optimal/" ++ "/ml_method/"))
                (env.dataEncoderRun test_dataset opt
                  ⟨foldPath p run, p.batch_size, false, "test_dataset.pkl", p.labels⟩)
                run (foldPath p run) (allPredictionsPath p))) := by
  constructor
  · simp [run_assessment_fold, hsel, encode_dataset, train_optimal_method, assess_performance]
  · intro hrep
    simp [run_assessment_fold, hsel, encode_dataset, train_optimal_method,
      assess_performance, hrep]

theorem c2_fold_step_order_witness :
    ((run_selection trivEnv witProc dsTrainW (foldPath witProc 1) g0).1 = .ok 0) ∧
      ((run_assessment_fold trivEnv witProc dsTrainW dsTestW 1 g0).2.2
          = [Event.pathBuild (foldPath witProc 1)]
            ++ (run_selection trivEnv witProc dsTrainW (foldPath witProc 1) g0).2.2
            ++ [Event.encodeCall dsTrainW 0
                  ⟨foldPath witProc 1, witProc.batch_size, true, "train_dataset.pkl",
                    witProc.labels⟩,
                Event.trainCall
                  (trivEnv.dataEncoderRun dsTrainW 0
                    ⟨foldPath witProc 1, witProc.batch_size, true, "train_dataset.pkl",
                      witProc.labels⟩)
                  0 (foldPath witProc 1 ++ "optimal/" ++ "/ml_method/"),
                Event.encodeCall dsTestW 0
                  ⟨foldPath witProc 1, witProc.batch_size, false, "test_dataset.pkl",
                    witProc.labels⟩,
                Event.assessCall
                  (trivEnv.mlTrainerRun 0
                    (trivEnv.dataEncoderRun dsTrainW 0
                      ⟨foldPath witProc 1, witProc.batch_size, true, "train_dataset.pkl",
                        witProc.labels⟩)
                    witProc.labels (foldPath witProc 1 ++ "optimal/" ++ "/ml_method/"))
                  (trivEnv.dataEncoderRun dsTestW 0
                    ⟨foldPath witProc 1, witProc.batch_size, false, "test_dataset.pkl",
                      witProc.labels⟩)
                  1 (foldPath witProc 1)]
            ++ (run_assessment_reports trivEnv witProc dsTrainW dsTestW
                  (trivEnv.mlTrainerRun 0
                    (trivEnv.dataEncoderRun dsTrainW 0
                      ⟨foldPath witProc 1, witProc.batch_size, true, "train_dataset.pkl",
                        witProc.labels⟩)
                    witProc.labels (foldPath witProc 1 ++ "optimal/" ++ "/ml_method/"))
                  (foldPath witProc 1 ++ "reports/")).2
        ∧ ((run_assessment_reports trivEnv witProc dsTrainW dsTestW
              (trivEnv.mlTrainerRun 0
                (trivEnv.dataEncoderRun dsTrainW 0
                  ⟨foldPath witProc 1, witProc.batch_size, true, "train_dataset.pkl",
                    witProc.labels⟩)
                witProc.labels (foldPath witProc 1 ++ "optimal/" ++ "/ml_method/"))
              (foldPath witProc 1 ++ "reports/")).1 = .ok ()
            → (run_assessment_fold trivEnv witProc dsTrainW dsTestW 1 g0).1
              = .ok (trivEnv.mlAssessmentRun
                  (trivEnv.mlTrainerRun 0
                    (trivEnv.dataEncoderRun dsTrainW 0
                      ⟨foldPath witProc 1, witProc.batch_size, true, "train_dataset.pkl",
                        witProc.labels⟩)
                    witProc.labels (foldPath witProc 1 ++ "optimal/" ++ "/ml_method/"))
                  (trivEnv.dataEncoderRun dsTestW 0
                    ⟨foldPath witProc 1, witProc.batch_size, false, "test_dataset.pkl",
                      witProc.labels⟩)
                  1 (foldPath witProc 1) (allPredictionsPath witProc)))) :=
  ⟨rfl, c2_fold_step_order trivEnv witProc dsTrainW dsTestW 1 g0 0 rfl⟩

theorem settingFolds_no_strat {σ : Type} (env : Env) (p : HPProc σ) (s : HPSetting)
    (tr te : List Dataset) (cp : String) :
    ∀ (n start : Nat), ∀ e ∈ (settingFolds env p s tr te cp start n).2, isStratEvent e = false
  | 0, _, e, he => by simp [settingFolds] at he
  | n + 1, start, e, he => by
      simp only [settingFolds, run_setting, List.append_assoc, List.cons_append,
        List.nil_append, List.mem_cons] at he
      rcases he with h | h | h
      · subst h; rfl
      · subst h; rfl
      · exact settingFolds_no_strat env p s tr te cp n (start + 1) e h

/-- The strategy events a terminating selection loop emits are exactly one
feedback event per evaluated candidate, carrying the candidate and the
performance record just computed for it by `test_hp_setting`. -/
theorem hpLoop_strat {σ : Type} (env : Env) (p : HPProc σ) (tr te : List Dataset)
    (path : String) :
    ∀ (fuel : Nat) (cur : Option HPSetting) (g : σ),
      (hpLoop env p tr te path fuel cur g).2.2 = true →
      ∃ fb : List (HPSetting × PerfRecord),
        stratEvents (hpLoop env p tr te path fuel cur g).2.1
            = fb.map (fun x => Event.strategyFeedback x.1 x.2)
          ∧ ∀ x ∈ fb, x.2 = (test_hp_setting env p x.1 tr te path).1
  | _, none, _, _ => ⟨[], by simp [hpLoop, stratEvents], by simp⟩
  | 0, some _, _, hflag => by simp [hpLoop] at hflag
  | fuel + 1, some s, g, hflag => by
      have hflag' : (hpLoop env p tr te path fuel
          (p.hp_strategy.getNextFeedback g s
            (test_hp_setting env p s tr te path).1).1
          (p.hp_strategy.getNextFeedback g s
            (test_hp_setting env p s tr te path).1).2).2.2 = true := by
        simpa [hpLoop] using hflag
      obtain ⟨fb, hfb1, hfb2⟩ := hpLoop_strat env p tr te path fuel
        (p.hp_strategy.getNextFeedback g s (test_hp_setting env p s tr te path).1).1
        (p.hp_strategy.getNextFeedback g s (test_hp_setting env p s tr te path).1).2 hflag'
      refine ⟨(s, (test_hp_setting env p s tr te path).1) :: fb, ?_, ?_⟩
      · have hnos : List.filter isStratEvent (test_hp_setting env p s tr te path).2 = [] := by
          rw [List.filter_eq_nil_iff]
          intro e he
          rw [settingFolds_no_strat env p s tr te path p.selection.split_count 0 e
            (by simpa [test_hp_setting] using he)]
          simp
        simp only [hpLoop, stratEvents, List.filter_append, List.filter_cons] at *
        rw [hnos]
        simp only [isStratEvent, List.map_cons, List.nil_append, if_pos rfl]
        rw [hfb1]
        simp
      · intro x hx
        rcases List.mem_cons.mp hx with h | h
        · subst h; rfl
        · exact hfb2 x h

/-- Claim C4: the selection loop calls `get_next_setting` first with no
arguments (the `strategyFirst` event precedes every other strategy event), then
repeatedly with the just-evaluated setting and its just-computed averaged
performance record until exhaustion (the loop's strategy events are exactly one
feedback event per evaluated candidate); `get_optimal_hps` is called only after
the loop has ended — its event is the final event, after the configured
data-level reports over the inner splits — and its value is what the selection
returns. -/
theorem c4_selection_protocol {σ : Type} (env : Env) (p : HPProc σ) (train_dataset : Dataset)
    (current_path : String) (g : σ)
    (hflag : (hpLoop env p (split_data env p train_dataset p.selection).1
        (split_data env p train_dataset p.selection).2
        (current_path ++ "selection_" ++ p.selection.split_strategy_name ++ "/") p.fuel
        (p.hp_strategy.getNextFirst g).1 (p.hp_strategy.getNextFirst g).2).2.2 = true)
    (hrep : (run_selection_reports env p train_dataset
        (split_data env p train_dataset p.selection).1
        (split_data env p train_dataset p.selection).2
        (current_path ++ "selection_" ++ p.selection.split_strategy_name ++ "/"
          ++ "reports/")).1 = .ok ()) :
    ∃ fb : List (HPSetting × PerfRecord),
      (run_selection env p train_dataset current_path g).2.2
          = [Event.pathBuild
                (current_path ++ "selection_" ++ p.selection.split_strategy_name ++ "/"),
             Event.strategyFirst]
            ++ (hpLoop env p (split_data env p train_dataset p.selection).1
                (split_data env p train_dataset p.selection).2
                (current_path ++ "selection_" ++ p.selection.split_strategy_name ++ "/")
                p.fuel (p.hp_strategy.getNextFirst g).1
                (p.hp_strategy.getNextFirst g).2).2.1
            ++ (run_selection_reports env p train_dataset
                (split_data env p train_dataset p.selection).1
                (split_data env p train_dataset p.selection).2
                (current_path ++ "selection_" ++ p.selection.split_strategy_name ++ "/"
                  ++ "reports/")).2
            ++ [Event.strategyOptimal]
        ∧ stratEvents (hpLoop env p (split_data env p train_dataset p.selection).1
              (split_data env p train_dataset p.selection).2
              (current_path ++ "selection_" ++ p.selection.split_strategy_name ++ "/")
              p.fuel (p.hp_strategy.getNextFirst g).1
              (p.hp_strategy.getNextFirst g).2).2.1
            = fb.map (fun x => Event.strategyFeedback x.1 x.2)
        ∧ (∀ x ∈ fb, x.2 = (test_hp_setting env p x.1
              (split_data env p train_dataset p.selection).1
              (split_data env p train_dataset p.selection).2
              (current_path ++ "selection_" ++ p.selection.split_strategy_name ++ "/")).1)
        ∧ (∀ e ∈ (run_selection_reports env p train_dataset
              (split_data env p train_dataset p.selection).1
              (split_data env p train_dataset p.selection).2
              (current_path ++ "selection_" ++ p.selection.split_strategy_name ++ "/"
                ++ "reports/")).2, isDataReportEvent e = true)
        ∧ (run_selection env p train_dataset current_path g).1
            = .ok (p.hp_strategy.getOptimal
                (hpLoop env p (split_data env p train_dataset p.selection).1
                  (split_data env p train_dataset p.selection).2
                  (current_path ++ "selection_" ++ p.selection.split_strategy_name ++ "/")
                  p.fuel (p.hp_strategy.getNextFirst g).1
                  (p.hp_strategy.getNextFirst g).2).1) := by
  obtain ⟨fb, hfb1, hfb2⟩ := hpLoop_strat env p
    (split_data env p train_dataset p.selection).1
    (split_data env p train_dataset p.selection).2
    (current_path ++ "selection_" ++ p.selection.split_strategy_name ++ "/") p.fuel
    (p.hp_strategy.getNextFirst g).1 (p.hp_strategy.getNextFirst g).2 hflag
  refine ⟨fb, ?_, hfb1, hfb2, ?_, ?_⟩
  · simp [run_selection, hflag, hrep]
  · exact run_selection_reports_events env p train_dataset _ _ _
  · simp [run_selection, hflag, hrep]

theorem c4_selection_protocol_witness :
    ((hpLoop trivEnv witProc (split_data trivEnv witProc dsTrainW witProc.selection).1
        (split_data trivEnv witProc dsTrainW witProc.selection).2
        ("cp/" ++ "selection_" ++ witProc.selection.split_strategy_name ++ "/") witProc.fuel
        (witProc.hp_strategy.getNextFirst g0).1 (witProc.hp_strategy.getNextFirst g0).2).2.2
      = true) ∧
      ∃ fb : List (HPSetting × PerfRecord),
        (run_selection trivEnv witProc dsTrainW "cp/" g0).2.2
            = [Event.pathBuild ("cp/" ++ "selection_" ++ witProc.selection.split_strategy_name
                  ++ "/"),
               Event.strategyFirst]
              ++ (hpLoop trivEnv witProc (split_data trivEnv witProc dsTrainW
                    witProc.selection).1
                  (split_data trivEnv witProc dsTrainW witProc.selection).2
                  ("cp/" ++ "selection_" ++ witProc.selection.split_strategy_name ++ "/")
                  witProc.fuel (witProc.hp_strategy.getNextFirst g0).1
                  (witProc.hp_strategy.getNextFirst g0).2).2.1
              ++ (run_selection_reports trivEnv witProc dsTrainW
                  (split_data trivEnv witProc dsTrainW witProc.selection).1
                  (split_data trivEnv witProc dsTrainW witProc.selection).2
                  ("cp/" ++ "selection_" ++ witProc.selection.split_strategy_name ++ "/"
                    ++ "reports/")).2
              ++ [Event.strategyOptimal]
          ∧ stratEvents (hpLoop trivEnv witProc (split_data trivEnv witProc dsTrainW
                witProc.selection).1
                (split_data trivEnv witProc dsTrainW witProc.selection).2
                ("cp/" ++ "selection_" ++ witProc.selection.split_strategy_name ++ "/")
                witProc.fuel (witProc.hp_strategy.getNextFirst g0).1
                (witProc.hp_strategy.getNextFirst g0).2).2.1
              = fb.map (fun x => Event.strategyFeedback x.1 x.2)
          ∧ (∀ x ∈ fb, x.2 = (test_hp_setting trivEnv witProc x.1
                (split_data trivEnv witProc dsTrainW witProc.selection).1
                (split_data trivEnv witProc dsTrainW witProc.selection).2
                ("cp/" ++ "selection_" ++ witProc.selection.split_strategy_name ++ "/")).1)
          ∧ (∀ e ∈ (run_selection_reports trivEnv witProc dsTrainW
                (split_data trivEnv witProc dsTrainW witProc.selection).1
                (split_data trivEnv witProc dsTrainW witProc.selection).2
                ("cp/" ++ "selection_" ++ witProc.selection.split_strategy_name ++ "/"
                  ++ "reports/")).2, isDataReportEvent e = true)
          ∧ (run_selection trivEnv witProc dsTrainW "cp/" g0).1
              = .ok (witProc.hp_strategy.getOptimal
                  (hpLoop trivEnv witProc (split_data trivEnv witProc dsTrainW
                      witProc.selection).1
                    (split_data trivEnv witProc dsTrainW witProc.selection).2
                    ("cp/" ++ "selection_" ++ witProc.selection.split_strategy_name ++ "/")
                    witProc.fuel (witProc.hp_strategy.getNextFirst g0).1
                    (witProc.hp_strategy.getNextFirst g0).2).1) :=
  ⟨rfl, c4_selection_protocol trivEnv witProc dsTrainW "cp/" g0 rfl rfl⟩

/-- The strategy state entering outer fold `start + i`, obtained by threading
the shared strategy object through the preceding folds. -/
def foldStateAfter {σ : Type} (env : Env) (p : HPProc σ) (tr te : List Dataset) :
    Nat → σ → Nat → σ
  | _, g, 0 => g
  | start, g, i + 1 => foldStateAfter env p tr te (start + 1)
      (run_assessment_fold env p (tr.getD start dfltDataset) (te.getD start dfltDataset)
        (start + 1) g).2.1 i

theorem assessmentFolds_ok {σ : Type} (env : Env) (p : HPProc σ) (tr te : List Dataset) :
    ∀ (n start : Nat) (g : σ) (perfs : List PerfRecord),
      (assessmentFolds env p tr te start n g).1 = .ok perfs →
      perfs.length = n ∧
        ∀ i, i < n →
          (run_assessment_fold env p (tr.getD (start + i) dfltDataset)
              (te.getD (start + i) dfltDataset) (start + i + 1)
              (foldStateAfter env p tr te start g i)).1 = .ok (perfs.getD i [])
  | 0, start, g, perfs, h => by
      simp only [assessmentFolds, Except.ok.injEq] at h
      subst h
      exact ⟨rfl, fun i hi => absurd hi (by omega)⟩
  | n + 1, start, g, perfs, h => by
      simp only [assessmentFolds] at h
      split at h
      · simp at h
      · split at h
        · simp at h
        · rename_i xo perf hr xi perfs' hrest
          obtain ⟨hlen, hall⟩ := assessmentFolds_ok env p tr te n (start + 1)
            (run_assessment_fold env p (tr.getD start dfltDataset)
              (te.getD start dfltDataset) (start + 1) g).2.1 perfs' hrest
          have hperfs : perfs = perf :: perfs' := by
            simp only [Except.ok.injEq] at h
            exact h.symm
          subst hperfs
          refine ⟨by simp [hlen], ?_⟩
          intro i hi
          cases i with
          | zero => simpa [foldStateAfter] using hr
          | succ i =>
              have harith1 : start + (i + 1) = start + 1 + i := by omega
              have harith2 : start + (i + 1) + 1 = start + 1 + i + 1 := by omega
              have := hall i (by omega)
              simp only [foldStateAfter, harith1, harith2, List.getD_cons_succ]
              exact this

/-- Claim C7: on success, the assessment loop returns exactly
`assessment.split_count` performance records, the `i`-th produced from the
`i`-th outer train/test pair (with the strategy state threaded through the
preceding folds), and the trace ends with `print_performances` — the
human-readable stdout summary, which contains one per-fold per-label score row
per fold and one per-label arithmetic-average line per registered label. -/
theorem c7_assessment_output {σ : Type} (env : Env) (p : HPProc σ) (g : σ)
    (perfs : List PerfRecord)
    (hok : (run_assessment env p g).1 = .ok perfs) :
    perfs.length = p.assessment.split_count
      ∧ (∀ i, i < p.assessment.split_count →
          (run_assessment_fold env p
              ((split_data env p p.dataset p.assessment).1.getD i dfltDataset)
              ((split_data env p p.dataset p.assessment).2.getD i dfltDataset) (i + 1)
              (foldStateAfter env p (split_data env p p.dataset p.assessment).1
                (split_data env p p.dataset p.assessment).2 0 g i)).1
            = .ok (perfs.getD i []))
      ∧ (run_assessment env p g).2.2
          = (assessmentFolds env p (split_data env p p.dataset p.assessment).1
              (split_data env p p.dataset p.assessment).2 0 p.assessment.split_count g).2.2
            ++ print_performances p perfs
      ∧ (∀ i, i < perfs.length →
          Event.stdout (perfRow p i (perfs.getD i [])) ∈ (run_assessment env p g).2.2)
      ∧ (∀ label ∈ p.labels,
          Event.stdout (avgLine perfs label) ∈ (run_assessment env p g).2.2) := by
  rcases hf : (assessmentFolds env p (split_data env p p.dataset p.assessment).1
      (split_data env p p.dataset p.assessment).2 0 p.assessment.split_count g).1
    with e | perfs'
  · rw [run_assessment] at hok
    simp only [hf] at hok
    cases hok
  · have hperfs : perfs' = perfs := by
      rw [run_assessment] at hok
      simp only [hf, Except.ok.injEq] at hok
      exact hok
    subst hperfs
    obtain ⟨hlen, hall⟩ := assessmentFolds_ok env p
      (split_data env p p.dataset p.assessment).1
      (split_data env p p.dataset p.assessment).2 p.assessment.split_count 0 g perfs' hf
    have htrace : (run_assessment env p g).2.2
        = (assessmentFolds env p (split_data env p p.dataset p.assessment).1
            (split_data env p p.dataset p.assessment).2 0 p.assessment.split_count g).2.2
          ++ print_performances p perfs' := by
      rw [run_assessment]
      simp only [hf]
    refine ⟨hlen, fun i hi => by simpa using hall i hi, htrace, ?_, ?_⟩
    · intro i hi
      rw [htrace]
      refine List.mem_append_right _ ?_
      rw [print_performances]
      refine List.mem_append_left _ ?_
      refine List.mem_append_left _ ?_
      refine List.mem_append_right _ ?_
      have hilen : i < perfs'.enum.length := by simpa [List.enum_length] using hi
      have hmem : (i, perfs'[i]) ∈ perfs'.enum := by
        have hx := List.getElem_mem hilen
        rwa [List.getElem_enum] at hx
      have hval : perfs'.getD i [] = perfs'[i] := List.getD_eq_getElem perfs' [] hi
      rw [hval]
      exact List.mem_map_of_mem _ hmem
    · intro label hlabel
      rw [htrace]
      refine List.mem_append_right _ ?_
      rw [print_performances]
      refine List.mem_append_right _ ?_
      exact List.mem_map_of_mem _ hlabel

theorem c7_assessment_output_witness :
    ((run_assessment trivEnv witProc g0).1 = .ok [[("l", 1)]]) ∧
      ([[("l", (1 : ℚ))]].length = witProc.assessment.split_count
        ∧ (∀ i, i < witProc.assessment.split_count →
            (run_assessment_fold trivEnv witProc
                ((split_data trivEnv witProc witProc.dataset witProc.assessment).1.getD i
                  dfltDataset)
                ((split_data trivEnv witProc witProc.dataset witProc.assessment).2.getD i
                  dfltDataset) (i + 1)
                (foldStateAfter trivEnv witProc
                  (split_data trivEnv witProc witProc.dataset witProc.assessment).1
                  (split_data trivEnv witProc witProc.dataset witProc.assessment).2 0 g0 i)).1
              = .ok ([[("l", (1 : ℚ))]].getD i []))
        ∧ (run_assessment trivEnv witProc g0).2.2
            = (assessmentFolds trivEnv witProc
                (split_data trivEnv witProc witProc.dataset witProc.assessment).1
                (split_data trivEnv witProc witProc.dataset witProc.assessment).2 0
                witProc.assessment.split_count g0).2.2
              ++ print_performances witProc [[("l", (1 : ℚ))]]
        ∧ (∀ i, i < [[("l", (1 : ℚ))]].length →
            Event.stdout (perfRow witProc i ([[("l", (1 : ℚ))]].getD i []))
              ∈ (run_assessment trivEnv witProc g0).2.2)
        ∧ (∀ label ∈ witProc.labels,
            Event.stdout (avgLine [[("l", (1 : ℚ))]] label)
              ∈ (run_assessment trivEnv witProc g0).2.2)) :=
  ⟨rfl, c7_assessment_output trivEnv witProc g0 [[("l", 1)]] rfl⟩

/-! ### Claim C6: report failures -/

/-- Environment whose data reports always raise. -/
def failEnv : Env :=
  { dataSplitterRun := fun d _ => ([d, d], [d, d])
    dataEncoderRun := fun d _ _ => d
    mlTrainerRun := fun _ _ _ _ => 0
    mlAssessmentRun := fun _ _ _ _ _ => []
    mlProcessRun := fun _ _ _ _ _ => []
    dataReportGen := fun _ _ _ => .error "boom"
    modelReportGen := fun _ _ _ _ _ => .ok () }

/-- Two outer folds, one configured data-split report on the assessment side,
no labels (so no rational arithmetic is needed to evaluate the run). -/
def c6Proc : HPProc GridState :=
  { dataset := dsMain, hp_strategy := gridStrategy "l", hp_settings := [0]
    assessment := ⟨"random", 2, 7 / 10, none, ⟨[0], [], [], [], []⟩⟩
    selection := cfg1, metrics := [], labels := [], path := "p/", batch_size := 10, fuel := 3 }

/-- Claim C6 is false on the code: a single failing data-split report is not
isolated — `run_assessment` returns the report's error (the claim would have it
continue), and the second outer fold is never started (its path-build event is
absent from the trace). -/
theorem c6_counterexample :
    (run_assessment failEnv c6Proc g0).1 = .error "boom"
      ∧ Event.pathBuild (foldPath c6Proc 2) ∉ (run_assessment failEnv c6Proc g0).2.2 := by
  constructor
  · rfl
  · decide

/-- Claim C6 amended: a failure raised during a report invocation propagates —
the assessment-reports step's error becomes the fold's error, any configured
performance report raises `NotImplementedError` unconditionally, and an
erroring fold aborts the assessment loop (the remaining folds are not run and
the loop returns that error). -/
theorem c6_amended_report_failures_propagate {σ : Type} (env : Env) (p : HPProc σ)
    (train_dataset test_dataset : Dataset) (run : Nat) (g : σ) (opt : HPSetting) (e : Err)
    (hsel : (run_selection env p train_dataset (foldPath p run) g).1 = .ok opt) :
    ((run_assessment_reports env p train_dataset test_dataset
          (env.mlTrainerRun opt
            (env.dataEncoderRun train_dataset opt
              ⟨foldPath p run, p.batch_size, true, "train_dataset.pkl", p.labels⟩)
            p.labels (foldPath p run ++ "optimal/" ++ "/ml_method/"))
          (foldPath p run ++ "reports/")).1 = .error e
        → (run_assessment_fold env p train_dataset test_dataset run g).1 = .error e)
      ∧ (∀ (r : Nat) (rs : List Nat) (m : MLMethod) (a b : Dataset) (pth : String),
          (runList (fun report => run_performance_report report m a b pth) (r :: rs)).1
            = .error "NotImplementedError")
      ∧ (∀ (tr te : List Dataset) (n start : Nat) (e2 : Err),
          (run_assessment_fold env p (tr.getD start dfltDataset) (te.getD start dfltDataset)
              (start + 1) g).1 = .error e2
            → (assessmentFolds env p tr te start (n + 1) g).1 = .error e2) := by
  refine ⟨?_, ?_, ?_⟩
  · intro hrep
    simp [run_assessment_fold, hsel, encode_dataset, train_optimal_method,
      assess_performance, hrep]
  · intro r rs m a b pth
    rfl
  · intro tr te n start e2 hferr
    simp only [assessmentFolds]
    rw [hferr]

theorem c6_amended_report_failures_propagate_witness :
    ((run_selection failEnv c6Proc dsTrainW (foldPath c6Proc 1) g0).1 = .ok 0) ∧
      (((run_assessment_reports failEnv c6Proc dsTrainW dsTestW
            (failEnv.mlTrainerRun 0
              (failEnv.dataEncoderRun dsTrainW 0
                ⟨foldPath c6Proc 1, c6Proc.batch_size, true, "train_dataset.pkl",
                  c6Proc.labels⟩)
              c6Proc.labels (foldPath c6Proc 1 ++ "optimal/" ++ "/ml_method/"))
            (foldPath c6Proc 1 ++ "reports/")).1 = .error "boom"
          → (run_assessment_fold failEnv c6Proc dsTrainW dsTestW 1 g0).1 = .error "boom")
        ∧ (∀ (r : Nat) (rs : List Nat) (m : MLMethod) (a b : Dataset) (pth : String),
            (runList (fun report => run_performance_report report m a b pth) (r :: rs)).1
              = .error "NotImplementedError")
        ∧ (∀ (tr te : List Dataset) (n start : Nat) (e2 : Err),
            (run_assessment_fold failEnv c6Proc (tr.getD start dfltDataset)
                (te.getD start dfltDataset) (start + 1) g0).1 = .error e2
              → (assessmentFolds failEnv c6Proc tr te start (n + 1) g0).1 = .error e2)) :=
  ⟨rfl, c6_amended_report_failures_propagate failEnv c6Proc dsTrainW dsTestW 1 g0 0 "boom" rfl⟩

/-! ### Claim C3: strategy sharing across outer folds -/

/-- Definition following the claim's words (C3 compares behaviours under
different execution orders of the outer folds): run the outer assessment folds
in the given index order, threading the shared strategy state in execution
order, and pair each executed fold index with the performance result it
produced. -/
def run_assessment_in_order {σ : Type} (env : Env) (p : HPProc σ) :
    List Nat → σ → List (Nat × Except Err PerfRecord) × σ
  | [], g => ([], g)
  | i :: rest, g =>
      let split := split_data env p p.dataset p.assessment
      let r := run_assessment_fold env p (split.1.getD i dfltDataset)
        (split.2.getD i dfltDataset) (i + 1) g
      let more := run_assessment_in_order env p rest r.2.1
      ((i, r.1) :: more.1, more.2)

def dsA : Dataset := ⟨"A", [], none, none⟩

def dsB : Dataset := ⟨"B", [], none, none⟩

/-- Environment in which candidate setting 0 wins on outer fold A and
candidate setting 1 wins on outer fold B, and the assessed record reveals
which setting was trained. -/
def c3Env : Env :=
  { dataSplitterRun := fun d c => if c.split_count = 2 then ([dsA, dsB], [dsA, dsB])
      else ([d], [d])
    dataEncoderRun := fun d _ _ => d
    mlTrainerRun := fun s _ _ _ => s
    mlAssessmentRun := fun m _ _ _ _ => [("l", (m : ℚ))]
    mlProcessRun := fun train _ s _ _ =>
      [("l", if train.id = "A" then (if s = 0 then (1 : ℚ) else 0)
        else (if s = 1 then (1 : ℚ) else 0))]
    dataReportGen := fun _ _ _ => .ok ()
    modelReportGen := fun _ _ _ _ _ => .ok () }

def c3Proc : HPProc GridState :=
  { dataset := dsMain, hp_strategy := gridStrategy "l", hp_settings := [0, 1]
    assessment := ⟨"random", 2, 7 / 10, none, emptyReports⟩
    selection := cfg1, metrics := [], labels := ["l"], path := "p/", batch_size := 10
    fuel := 5 }

def g0c3 : GridState := ⟨[0, 1], []⟩

theorem c3_eval_order01 :
    ((run_assessment_in_order c3Env c3Proc [0, 1] g0c3).1.getD 0 (0, .error "")).2
      = .ok [("l", 0)] := by
  simp [run_assessment_in_order, run_assessment_fold, run_selection, split_data, hpLoop,
    test_hp_setting, settingFolds, run_setting, get_average_performance, dictGet,
    encode_dataset, train_optimal_method, assess_performance, run_assessment_reports,
    run_selection_reports, runList, gridStrategy, gridBest, foldPath, allPredictionsPath,
    settingName, c3Env, c3Proc, g0c3, dsA, dsB, dsMain, cfg1, emptyReports,
    (show ¬((0 : ℚ) > 1) by norm_num), (show (1 : ℚ) > 0 by norm_num)]

theorem c3_eval_order10 :
    ((run_assessment_in_order c3Env c3Proc [1, 0] g0c3).1.getD 1 (0, .error "")).2
      = .ok [("l", 1)] := by
  simp [run_assessment_in_order, run_assessment_fold, run_selection, split_data, hpLoop,
    test_hp_setting, settingFolds, run_setting, get_average_performance, dictGet,
    encode_dataset, train_optimal_method, assess_performance, run_assessment_reports,
    run_selection_reports, runList, gridStrategy, gridBest, foldPath, allPredictionsPath,
    settingName, c3Env, c3Proc, g0c3, dsA, dsB, dsMain, cfg1, emptyReports,
    (show ¬((0 : ℚ) > 1) by norm_num), (show (1 : ℚ) > 0 by norm_num)]

/-- Claim C3 is false on the code: the search strategy is one shared stateful
object, never reset between outer folds, so the order in which the outer folds
are executed changes the per-fold performance records.  Concretely, outer fold
0's record is `[("l", 0)]` when fold 0 runs first but `[("l", 1)]` when fold 1
runs first (the first-executed fold exhausts the shared grid strategy and fixes
the optimum from its own data for every later fold). -/
theorem c3_counterexample :
    ¬ (((run_assessment_in_order c3Env c3Proc [0, 1] g0c3).1.getD 0 (0, .error "")).2
        = ((run_assessment_in_order c3Env c3Proc [1, 0] g0c3).1.getD 1 (0, .error "")).2) := by
  rw [c3_eval_order01, c3_eval_order10]
  intro hx
  simp only [Except.ok.injEq, List.cons.injEq, Prod.mk.injEq] at hx
  exact absurd hx.1.2 (by norm_num)

theorem foldStateAfter_succ {σ : Type} (env : Env) (p : HPProc σ) (tr te : List Dataset) :
    ∀ (i start : Nat) (g : σ),
      foldStateAfter env p tr te start g (i + 1)
        = (run_assessment_fold env p (tr.getD (start + i) dfltDataset)
            (te.getD (start + i) dfltDataset) (start + i + 1)
            (foldStateAfter env p tr te start g i)).2.1
  | 0, start, g => by simp [foldStateAfter]
  | i + 1, start, g => by
      have ih := foldStateAfter_succ env p tr te i (start + 1)
        (run_assessment_fold env p (tr.getD start dfltDataset) (te.getD start dfltDataset)
          (start + 1) g).2.1
      simp only [foldStateAfter] at ih ⊢
      rw [ih]
      have h1 : start + 1 + i = start + (i + 1) := by omega
      rw [h1]

/-- Claim C3 amended: the search strategy is a single stateful object shared
across the outer assessment folds and never reset — the state entering fold
`i + 1` is exactly the state left behind by fold `i` — so the outer folds are
not independent, and executing them in a different order can change the
per-fold performance records (witnessed by the concrete grid-search instance in
which fold 0's record flips depending on whether it runs first or second). -/
theorem c3_amended_shared_strategy {σ : Type} (env : Env) (p : HPProc σ)
    (tr te : List Dataset) :
    (∀ (i start : Nat) (g : σ),
        foldStateAfter env p tr te start g (i + 1)
          = (run_assessment_fold env p (tr.getD (start + i) dfltDataset)
              (te.getD (start + i) dfltDataset) (start + i + 1)
              (foldStateAfter env p tr te start g i)).2.1)
      ∧ ¬ (((run_assessment_in_order c3Env c3Proc [0, 1] g0c3).1.getD 0 (0, .error "")).2
            = ((run_assessment_in_order c3Env c3Proc [1, 0] g0c3).1.getD 1
                (0, .error "")).2) := by
  refine ⟨foldStateAfter_succ env p tr te, ?_⟩
  rw [c3_eval_order01, c3_eval_order10]
  intro hx
  simp only [Except.ok.injEq, List.cons.injEq, Prod.mk.injEq] at hx
  exact absurd hx.1.2 (by norm_num)

/-- Claim C8: determinism / idempotence.  Every collaborator step is a
deterministic function of its inputs (the spec's section 7 assumption, built
into `Env`), and the orchestrator consults no other state: two runs of the full
assessment loop with the same dataset, configuration, initial strategy state
and extensionally equal collaborators (same split seed means the same split
function) return identical per-fold performance records, final strategy state
and trace; and the selection loop likewise returns the same optimal setting. -/
theorem c8_determinism {σ : Type} (env1 env2 : Env) (p : HPProc σ) (g : σ)
    (hsplit : ∀ d c, env1.dataSplitterRun d c = env2.dataSplitterRun d c)
    (henc : ∀ d s pr, env1.dataEncoderRun d s pr = env2.dataEncoderRun d s pr)
    (htrain : ∀ s d l pth, env1.mlTrainerRun s d l pth = env2.mlTrainerRun s d l pth)
    (hassess : ∀ m d r pth ap,
      env1.mlAssessmentRun m d r pth ap = env2.mlAssessmentRun m d r pth ap)
    (hml : ∀ a b s r pth, env1.mlProcessRun a b s r pth = env2.mlProcessRun a b s r pth)
    (hdr : ∀ r d pth, env1.dataReportGen r d pth = env2.dataReportGen r d pth)
    (hmr : ∀ r a b m pth, env1.modelReportGen r a b m pth = env2.modelReportGen r a b m pth) :
    run_assessment env1 p g = run_assessment env2 p g
      ∧ ∀ (d : Dataset) (cp : String),
          run_selection env1 p d cp g = run_selection env2 p d cp g := by
  have henv : env1 = env2 := by
    cases env1
    cases env2
    simp only [Env.mk.injEq]
    refine ⟨?_, ?_, ?_, ?_, ?_, ?_, ?_⟩
    · funext d c
      exact hsplit d c
    · funext d s pr
      exact henc d s pr
    · funext s d l pth
      exact htrain s d l pth
    · funext m d r pth ap
      exact hassess m d r pth ap
    · funext a b s r pth
      exact hml a b s r pth
    · funext r d pth
      exact hdr r d pth
    · funext r a b m pth
      exact hmr r a b m pth
  rw [henv]
  exact ⟨rfl, fun _ _ => rfl⟩

theorem c8_determinism_witness :
    (∀ d c, trivEnv.dataSplitterRun d c = trivEnv.dataSplitterRun d c) ∧
      (run_assessment trivEnv witProc g0 = run_assessment trivEnv witProc g0
        ∧ ∀ (d : Dataset) (cp : String),
            run_selection trivEnv witProc d cp g0 = run_selection trivEnv witProc d cp g0) :=
  ⟨fun _ _ => rfl,
    c8_determinism trivEnv trivEnv witProc g0 (fun _ _ => rfl) (fun _ _ _ => rfl)
      (fun _ _ _ _ => rfl) (fun _ _ _ _ _ => rfl) (fun _ _ _ _ _ => rfl)
      (fun _ _ _ => rfl) (fun _ _ _ _ _ => rfl)⟩

end ImmuneML
